import Mathlib

/-!
Shallow embedding of the decision layer of the linkerd2-proxy fork:
inbound connection classification (accept.rs), ingress HTTP routing
(ingress.rs), and the discovery resolver's permission filter and
backoff-recovery classifier (dst/resolve.rs).
-/

/-- Result of the switch combinator in the service stack: variant a goes to
the first (inner) stack, variant b to the alternate stack. Mirrors svc::Either. -/
inductive SvcEither (α β : Type) where
  | a (x : α)
  | b (y : β)
deriving DecidableEq

/-- An IP address, either a 32-bit v4 value or a 128-bit v6 value,
modelled as natural numbers. Mirrors std::net::IpAddr. -/
inductive IpAddr where
  | v4 (bits : Nat)
  | v6 (bits : Nat)
deriving DecidableEq

/-- A socket address: an IP address and a port. Mirrors std::net::SocketAddr. -/
structure SocketAddr where
  ip : IpAddr
  port : Nat
deriving DecidableEq

/-- A named destination: DNS labels plus a port. Mirrors linkerd NameAddr. -/
structure NameAddr where
  name : List String
  port : Nat
deriving DecidableEq

/-- Modelled from the spec: a DNS domain suffix from the dns crate (not under
src/); the empty list is the root suffix, which every name matches. -/
abbrev Suffix := List String

/-- Modelled from the spec: dns Suffix::contains — a name matches a suffix when
the suffix's labels are a suffix of the name's labels. -/
def suffixContains (s : Suffix) (name : List String) : Bool :=
  List.isSuffixOf s name

/-- Modelled from the spec: the name half of AddrMatch (allow_discovery.names())
— a name matches when it matches any configured suffix. -/
def nameMatchMatches (domains : List Suffix) (name : List String) : Bool :=
  domains.any fun s => suffixContains s name

/-- An IPv4 network: a 32-bit base address and a mask length. Models ipnet::Ipv4Net. -/
structure Ipv4Net where
  base : Nat
  maskLen : Nat
deriving DecidableEq

/-- An IPv6 network: a 128-bit base address and a mask length. Models ipnet::Ipv6Net. -/
structure Ipv6Net where
  base : Nat
  maskLen : Nat
deriving DecidableEq

/-- An IP network range, v4 or v6. Mirrors ipnet::IpNet. -/
inductive IpNet where
  | v4 (n : Ipv4Net)
  | v6 (n : Ipv6Net)
deriving DecidableEq

/-- Modelled from the spec: ipnet Contains for v4 — the address is in the range
when its top maskLen bits agree with the base address's. -/
def ipv4NetContains (n : Ipv4Net) (addr : Nat) : Bool :=
  addr % 2 ^ 32 / 2 ^ (32 - n.maskLen) == n.base % 2 ^ 32 / 2 ^ (32 - n.maskLen)

/-- Modelled from the spec: ipnet Contains for v6 — the address is in the range
when its top maskLen bits agree with the base address's. -/
def ipv6NetContains (n : Ipv6Net) (addr : Nat) : Bool :=
  addr % 2 ^ 128 / 2 ^ (128 - n.maskLen) == n.base % 2 ^ 128 / 2 ^ (128 - n.maskLen)

/-- A destination address, either a name or a socket address. Mirrors linkerd Addr. -/
inductive Addr where
  | name (na : NameAddr)
  | socket (sa : SocketAddr)
deriving DecidableEq

namespace Dst

/-- The resolver's target (linkerd2_app_outbound::Concrete): its destination
address is all the permission filter inspects. -/
structure Target where
  dst : Addr
deriving DecidableEq

/-- The non-retryable rejection error produced by the permission filter and by
the recovery classifier (DiscoveryRejected). -/
structure DiscoveryRejected where
deriving DecidableEq

/-- DiscoveryRejected::new. -/
def DiscoveryRejected.new : DiscoveryRejected := {}

/-- The grpc status codes distinguished by the recovery classifier. Mirrors
tower_grpc::Code; only InvalidArgument is inspected by this core. -/
inductive Code where
  | ok
  | invalidArgument
  | notFound
  | unavailable
  | internal
  | otherCode (n : Nat)
deriving DecidableEq

/-- A grpc status carrying a code. Mirrors tower_grpc::Status. -/
structure Status where
  code : Code
deriving DecidableEq

/-- A boxed dynamic error as seen by the recovery classifier: either a grpc
Status, a DiscoveryRejected, or some other transport error. -/
inductive ProxyError where
  | grpcStatus (s : Status)
  | discoveryRejected (e : DiscoveryRejected)
  | otherErr (msg : String)
deriving DecidableEq

/-- Error::downcast to Status: yields the status when the boxed error is one,
and gives the original error back otherwise. -/
def downcastStatus (e : ProxyError) : Except ProxyError Status :=
  match e with
  | ProxyError.grpcStatus s => Except.ok s
  | e => Except.error e

/-- Modelled from the spec: the exp_backoff crate's ExponentialBackoff policy
(not under src/), kept opaque as its parameters (initial delay, max delay,
jitter); the claims only need its identity. -/
structure ExponentialBackoff where
  minMs : Nat
  maxMs : Nat
  jitterPct : Nat
deriving DecidableEq

/-- Modelled from the spec: a fresh jittered exponential backoff stream carrying
its generating policy (ExponentialBackoffStream). -/
structure ExponentialBackoffStream where
  policy : ExponentialBackoff
deriving DecidableEq

/-- ExponentialBackoff::stream — start a fresh backoff stream from the policy. -/
def ExponentialBackoff.stream (b : ExponentialBackoff) : ExponentialBackoffStream :=
  { policy := b }

/-- The recovery classifier wrapping an ExponentialBackoff
(BackoffUnlessInvalidArgument). -/
structure BackoffUnlessInvalidArgument where
  backoff : ExponentialBackoff
deriving DecidableEq

/-- BackoffUnlessInvalidArgument::recover — downcast the error to a grpc Status;
an InvalidArgument status aborts with DiscoveryRejected, every other error
(other statuses and non-status errors) yields a fresh backoff stream. -/
def BackoffUnlessInvalidArgument.recover (b : BackoffUnlessInvalidArgument)
    (err : ProxyError) : Except ProxyError ExponentialBackoffStream :=
  match downcastStatus err with
  | Except.ok status =>
    if status.code = Code.invalidArgument then
      Except.error (ProxyError.discoveryRejected DiscoveryRejected.new)
    else
      Except.ok b.backoff.stream
  | Except.error _ => Except.ok b.backoff.stream

/-- The destination permission filter's configuration (PermitConfiguredDsts):
allowed name suffixes and allowed network ranges. -/
structure PermitConfiguredDsts where
  name_suffixes : List Suffix
  networks : List IpNet
deriving DecidableEq

/-- PermitConfiguredDsts::filter — a name destination is permitted when some
configured suffix contains it; a socket destination when some configured
network of the same address family contains its IP; a permitted target is
returned unchanged, any other fails with DiscoveryRejected. -/
def PermitConfiguredDsts.filter (p : PermitConfiguredDsts) (t : Target) :
    Except DiscoveryRejected Target :=
  let permitted :=
    match t.dst with
    | Addr.name name => p.name_suffixes.any fun suffix => suffixContains suffix name.name
    | Addr.socket sa => p.networks.any fun net =>
        match net, sa.ip with
        | IpNet.v4 net, IpAddr.v4 addr => ipv4NetContains net addr
        | IpNet.v6 net, IpAddr.v6 addr => ipv6NetContains net addr
        | _, _ => false
  if permitted then Except.ok t else Except.error DiscoveryRejected.new

/-- Written after the specification's words, for comparison with the source's
filter: a name target is permitted iff its name matches a configured suffix; a
socket target iff a configured network range of the same address family
contains its address; mismatched families never permit. -/
def permittedSpec (p : PermitConfiguredDsts) (t : Target) : Bool :=
  match t.dst with
  | Addr.name name => nameMatchMatches p.name_suffixes name.name
  | Addr.socket sa =>
    match sa.ip with
    | IpAddr.v4 addr => p.networks.any fun net =>
        match net with
        | IpNet.v4 n => ipv4NetContains n addr
        | IpNet.v6 _ => false
    | IpAddr.v6 addr => p.networks.any fun net =>
        match net with
        | IpNet.v6 n => ipv6NetContains n addr
        | IpNet.v4 _ => false

/-- Modelled from the spec: request_filter::Service (not under src/) — the
filter runs once per resolution request, before the inner resolver; a rejected
target fails immediately and the inner discovery call is never made. -/
def requestFilterService {α : Type} (p : PermitConfiguredDsts)
    (inner : Target → α) (t : Target) : Except DiscoveryRejected α :=
  match p.filter t with
  | Except.ok t2 => Except.ok (inner t2)
  | Except.error e => Except.error e

end Dst

namespace Inbound

/-- Modelled from the spec: the port policy value attached to an accepted
connection (AllowPolicy, whose definition lives outside src/); kept opaque as a
tag since the claims only compare policies for equality. -/
structure AllowPolicy where
  tag : Nat
deriving DecidableEq

/-- Modelled from the spec: the single connection-not-permitted error kind,
carrying the port and client address for observability. -/
structure ConnectionDenied where
  port : Nat
  client : SocketAddr
deriving DecidableEq

/-- The connection descriptor offered to push_accept: its Param impls expose the
remote client address and the original destination address. -/
structure Conn where
  client : SocketAddr
  origDst : SocketAddr
deriving DecidableEq

/-- The result of successful classification (Accept): connection identity plus
the looked-up policy. -/
structure Accept where
  client_addr : SocketAddr
  orig_dst_addr : SocketAddr
  policy : AllowPolicy
deriving DecidableEq

/-- The push_accept switch closure: a connection whose original destination port
is the proxy's own port is diverted to the alternate (direct) stack; otherwise
the port policy store is consulted and a successful lookup yields an Accept for
the policy-checked stack, while a denial propagates as the error. -/
def pushAcceptSwitch (proxyPort : Nat)
    (check_allowed : SocketAddr → SocketAddr → Except ConnectionDenied AllowPolicy)
    (t : Conn) : Except ConnectionDenied (SvcEither Accept Conn) :=
  let addr := t.origDst
  if addr.port = proxyPort then
    Except.ok (SvcEither.b t)
  else
    match check_allowed t.origDst t.client with
    | Except.ok policy =>
      Except.ok (SvcEither.a { client_addr := t.client, orig_dst_addr := t.origDst, policy := policy })
    | Except.error e => Except.error e

end Inbound

namespace Ingress

/-- The negotiated HTTP protocol version of an ingress request. -/
inductive Version where
  | http1
  | h2
deriving DecidableEq

/-- The original destination address recovered from the accepted connection
(transport::OrigDstAddr). -/
structure OrigDstAddr where
  addr : SocketAddr
deriving DecidableEq

/-- The ingress routing target: the connection's original destination when no
override header is present, or the parsed override destination. -/
inductive Target where
  | Forward (a : OrigDstAddr)
  | Override (dst : NameAddr)
deriving DecidableEq

/-- The ingress router's cache key: routing target plus protocol version. -/
structure Http where
  target : Target
  version : Version
deriving DecidableEq

/-- The ingress-mode-routing-requires-a-service-profile error (ProfileRequired). -/
structure ProfileRequired where
deriving DecidableEq

/-- The l5d-dst-override-is-not-a-valid-host:port error (InvalidOverrideHeader). -/
structure InvalidOverrideHeader where
deriving DecidableEq

/-- The ingress-mode-routing-is-HTTP-only error (IngressHttpOnly). -/
structure IngressHttpOnly where
deriving DecidableEq

/-- The message-carrying rejection returned by the ingress discovery gate
(profiles::DiscoveryRejected). -/
structure DiscoveryRejectedMsg where
  message : String
deriving DecidableEq

/-- The profile lookup key handed to the profile getter (profiles::LookupAddr). -/
structure LookupAddr where
  addr : Addr
deriving DecidableEq

/-- A discovered service profile as observed through its receiver: an optional
canonical logical address. -/
structure Profile where
  addr : Option NameAddr
deriving DecidableEq

/-- The logical (load-balanced) route target built from a discovered profile. -/
structure Logical where
  profile : Profile
  logical_addr : NameAddr
  protocol : Version
deriving DecidableEq

/-- The reason client TLS is disabled on an ingress endpoint route. -/
inductive NoClientTls where
  | ingressWithoutOverride
deriving DecidableEq

/-- The conditional client TLS setting on an endpoint route. -/
inductive ConditionalClientTls where
  | noTls (reason : NoClientTls)
deriving DecidableEq

/-- The endpoint route built directly from an address, with no discovery
metadata and no logical address. -/
structure Endpoint where
  addr : SocketAddr
  logical_addr : Option NameAddr
  protocol : Version
  tls : ConditionalClientTls
deriving DecidableEq

/-- The into_ingress switch closure: a Forward target is routed to the endpoint
stack at the original destination with TLS disabled for lack of an override; an
Override target is routed to the logical stack when a discovered profile
carries a logical address, and otherwise fails with ProfileRequired. -/
def ingressSwitch (profile : Option Profile) (h : Http) :
    Except ProfileRequired (SvcEither Logical Endpoint) :=
  match h.target with
  | Target.Forward origDst =>
    Except.ok (SvcEither.b
      { addr := origDst.addr
        logical_addr := none
        protocol := h.version
        tls := ConditionalClientTls.noTls NoClientTls.ingressWithoutOverride })
  | Target.Override _ =>
    match profile with
    | some profile =>
      match profile.addr with
      | some logical_addr =>
        Except.ok (SvcEither.a
          { profile := profile, logical_addr := logical_addr, protocol := h.version })
      | none => Except.error ProfileRequired.mk
    | none => Except.error ProfileRequired.mk

/-- The profiles::discover::layer closure: the profile lookup address is
produced only for an Override target whose name is inside the configured
profile domains; every other target is rejected. -/
def allowProfile (profile_domains : List Suffix) (h : Http) :
    Except DiscoveryRejectedMsg LookupAddr :=
  match h.target with
  | Target.Override dst =>
    if nameMatchMatches profile_domains dst.name then
      Except.ok { addr := Addr.name dst }
    else
      Except.error { message := "not in configured ingress search addresses" }
  | Target.Forward _ =>
    Except.error { message := "not in configured ingress search addresses" }

/-- Modelled from the spec: the profiles::discover layer itself (not under
src/) — when the gate closure rejects a target the profile lookup is skipped
(logged at low severity) and no profile is passed inward; when it yields a
lookup address the profile getter is consulted. -/
def discoverProfile (getProfile : LookupAddr → Option Profile)
    (profile_domains : List Suffix) (h : Http) : Option Profile :=
  match allowProfile profile_domains h with
  | Except.ok addr => getProfile addr
  | Except.error _ => none

/-- The composition of the discovery layer and the ingress switch: the routing
outcome of one ingress request for its cached target. -/
def routeIngress (getProfile : LookupAddr → Option Profile)
    (profile_domains : List Suffix) (h : Http) :
    Except ProfileRequired (SvcEither Logical Endpoint) :=
  ingressSwitch (discoverProfile getProfile profile_domains h) h

/-- Split a character list on a separator, keeping empty chunks. -/
def splitOnChar (sep : Char) : List Char → List (List Char)
  | [] => [[]]
  | c :: rest =>
    let groups := splitOnChar sep rest
    if c = sep then [] :: groups
    else
      match groups with
      | [] => [[c]]
      | g :: gs => (c :: g) :: gs

/-- A character allowed inside a host label: letters, digits and hyphens. -/
def isNameChar (c : Char) : Bool :=
  c.isAlphanum || c = '-'

/-- Parse a non-empty all-digit chunk as a decimal number. -/
def parseDigits (cs : List Char) : Option Nat :=
  if cs.isEmpty then none
  else if cs.all Char.isDigit then
    some (cs.foldl (fun acc c => acc * 10 + (c.toNat - 48)) 0)
  else none

/-- Parse a host into its dot-separated labels; every label must be non-empty
and made of name characters. -/
def parseHostLabels (cs : List Char) : Option (List String) :=
  let labels := splitOnChar '.' cs
  if cs.isEmpty then none
  else if labels.all (fun l => !l.isEmpty && l.all isNameChar) then
    some (labels.map fun l => String.mk l)
  else none

/-- Modelled from the spec: http::authority_from_header composed with
NameAddr::from_authority_with_default_port (neither under src/) — the header
value is parsed as host[:port] with the default port used when the port is
omitted; a malformed value parses to none. -/
def nameAddrFromAuthority (s : String) (defaultPort : Nat) : Option NameAddr :=
  match splitOnChar ':' s.toList with
  | [host] => (parseHostLabels host).map fun labels => { name := labels, port := defaultPort }
  | [host, port] => do
    let labels ← parseHostLabels host
    let p ← parseDigits port
    if p < 65536 then some { name := labels, port := p } else none
  | _ => none

/-- The svc::NewRouter target-extraction closure: without the l5d-dst-override
header the target is Forward of the original destination; with a parseable
header value it is Override of the parsed name and port (default port 80); a
present but malformed value fails with InvalidOverrideHeader. -/
def routerExtract (orig_dst : OrigDstAddr) (protocol : Version)
    (header : Option String) : Except InvalidOverrideHeader Http :=
  match header with
  | none => Except.ok { target := Target.Forward orig_dst, version := protocol }
  | some a =>
    match nameAddrFromAuthority a 80 with
    | some dst => Except.ok { target := Target.Override dst, version := protocol }
    | none => Except.error InvalidOverrideHeader.mk

/-- Written after the specification's words, for comparison with the source's
discovery gate: discovery is attempted exactly for an Override target whose
name is inside the configured profile domains. -/
def inDomainOverride (profile_domains : List Suffix) (h : Http) : Bool :=
  match h.target with
  | Target.Override dst => nameMatchMatches profile_domains dst.name
  | Target.Forward _ => false

end Ingress

/-- Whether an Except value is the ok variant. -/
def exceptIsOk {ε α : Type} : Except ε α → Bool
  | Except.ok _ => true
  | Except.error _ => false

/-- A concrete backoff policy used to exercise the recovery classifier. -/
def b0 : Dst.BackoffUnlessInvalidArgument :=
  { backoff := { minMs := 100, maxMs := 3000, jitterPct := 10 } }

/-- A concrete permission-filter configuration: one allowed name suffix and one
allowed IPv4 network. -/
def permitCfg0 : Dst.PermitConfiguredDsts :=
  { name_suffixes := [["cluster", "local"]]
    networks := [IpNet.v4 { base := 3221225984, maskLen := 24 }] }

/-- A concrete name target inside the configured suffixes. -/
def dstName0 : Dst.Target := { dst := Addr.name { name := ["web", "cluster", "local"], port := 8080 } }

/-- A concrete name target outside the configured suffixes. -/
def dstName1 : Dst.Target := { dst := Addr.name { name := ["web", "example", "com"], port := 8080 } }

/-- A concrete connection whose original destination port is the proxy port 4143. -/
def conn0 : Inbound.Conn :=
  { client := { ip := IpAddr.v4 3221226003, port := 54321 }
    origDst := { ip := IpAddr.v4 3221225986, port := 4143 } }

/-- A concrete connection to an ordinary (non-proxy) port. -/
def connOther : Inbound.Conn :=
  { client := { ip := IpAddr.v4 3221226003, port := 54321 }
    origDst := { ip := IpAddr.v4 3221225986, port := 8080 } }

/-- A policy lookup that allows every connection with a fixed policy. -/
def checkAllow0 : SocketAddr → SocketAddr → Except Inbound.ConnectionDenied Inbound.AllowPolicy :=
  fun _ _ => Except.ok { tag := 7 }

/-- A concrete denial value. -/
def denied0 : Inbound.ConnectionDenied :=
  { port := 8080, client := { ip := IpAddr.v4 3221226003, port := 54321 } }

/-- A policy lookup that denies every connection. -/
def checkDeny0 : SocketAddr → SocketAddr → Except Inbound.ConnectionDenied Inbound.AllowPolicy :=
  fun _ _ => Except.error denied0

/-- The concrete configured profile domains. -/
def domains0 : List Suffix := [["cluster", "local"]]

/-- A concrete logical address carried by the discovered profile. -/
def laddr0 : NameAddr := { name := ["web", "cluster", "local"], port := 80 }

/-- A profile getter that always discovers a profile with a logical address. -/
def getProfile0 : Ingress.LookupAddr → Option Ingress.Profile :=
  fun _ => some { addr := some laddr0 }

/-- A concrete original destination for ingress requests. -/
def od0 : Ingress.OrigDstAddr := { addr := { ip := IpAddr.v4 3221225986, port := 8080 } }

/-- A concrete in-domain override destination. -/
def inDst0 : NameAddr := { name := ["web", "cluster", "local"], port := 8080 }

/-- A concrete out-of-domain override destination. -/
def outDst0 : NameAddr := { name := ["svc", "example", "com"], port := 9000 }

/-- A concrete ingress request key with no override header. -/
def httpFwd0 : Ingress.Http := { target := Ingress.Target.Forward od0, version := Ingress.Version.http1 }

/-- A concrete ingress request key with an in-domain override. -/
def httpIn0 : Ingress.Http := { target := Ingress.Target.Override inDst0, version := Ingress.Version.http1 }

/-- A concrete ingress request key with an out-of-domain override. -/
def httpOut0 : Ingress.Http := { target := Ingress.Target.Override outDst0, version := Ingress.Version.http1 }

/-- C1: for every discovery failure handled by the recovery classifier, a gRPC
Status with code InvalidArgument aborts recovery with a non-retryable
DiscoveryRejected error and no backoff is produced, while every other error
(other statuses or non-status errors) yields a fresh jittered exponential
backoff stream from the configured policy. -/
theorem C1_recover_classification (b : Dst.BackoffUnlessInvalidArgument) (err : Dst.ProxyError) :
    ((∃ s, err = Dst.ProxyError.grpcStatus s ∧ s.code = Dst.Code.invalidArgument) →
      b.recover err = Except.error (Dst.ProxyError.discoveryRejected Dst.DiscoveryRejected.new))
    ∧ ((∀ s, err = Dst.ProxyError.grpcStatus s → s.code ≠ Dst.Code.invalidArgument) →
      b.recover err = Except.ok b.backoff.stream) := by
  constructor
  · rintro ⟨s, rfl, hcode⟩
    simp [Dst.BackoffUnlessInvalidArgument.recover, Dst.downcastStatus, hcode]
  · intro hall
    cases err with
    | grpcStatus s =>
      have hne := hall s rfl
      simp [Dst.BackoffUnlessInvalidArgument.recover, Dst.downcastStatus, hne]
    | discoveryRejected e =>
      simp [Dst.BackoffUnlessInvalidArgument.recover, Dst.downcastStatus]
    | otherErr m =>
      simp [Dst.BackoffUnlessInvalidArgument.recover, Dst.downcastStatus]

/-- Witness for C1 at concrete errors: an InvalidArgument status aborts, a
non-status transport error backs off. -/
theorem C1_recover_classification_witness :
    b0.recover (Dst.ProxyError.grpcStatus { code := Dst.Code.invalidArgument })
        = Except.error (Dst.ProxyError.discoveryRejected Dst.DiscoveryRejected.new)
    ∧ b0.recover (Dst.ProxyError.otherErr "transport reset")
        = Except.ok b0.backoff.stream :=
  ⟨(C1_recover_classification b0 _).1 ⟨_, rfl, rfl⟩,
   (C1_recover_classification b0 _).2 (fun _ h => nomatch h)⟩

/-- C3: a connection whose original destination port equals the configured
proxy port is diverted to the direct path no matter what the policy store would
answer (the lookup is never consulted and no Accept is built), and every other
connection proceeds to the policy lookup. -/
theorem C3_proxy_port_direct (proxyPort : Nat) (t : Inbound.Conn) :
    (t.origDst.port = proxyPort →
      ∀ check_allowed, Inbound.pushAcceptSwitch proxyPort check_allowed t = Except.ok (SvcEither.b t))
    ∧ (t.origDst.port ≠ proxyPort →
      ∀ check_allowed, Inbound.pushAcceptSwitch proxyPort check_allowed t =
        (check_allowed t.origDst t.client).map
          fun policy => SvcEither.a
            { client_addr := t.client, orig_dst_addr := t.origDst, policy := policy }) := by
  constructor
  · intro hp check_allowed
    simp [Inbound.pushAcceptSwitch, hp]
  · intro hp check_allowed
    simp only [Inbound.pushAcceptSwitch, hp, if_false, if_neg hp]
    cases check_allowed t.origDst t.client <;> rfl

/-- Witness for C3: the proxy-port connection is diverted even under an
always-denying policy lookup. -/
theorem C3_proxy_port_direct_witness :
    Inbound.pushAcceptSwitch 4143 checkDeny0 conn0 = Except.ok (SvcEither.b conn0) :=
  (C3_proxy_port_direct 4143 conn0).1 rfl checkDeny0

/-- C8: for a connection to a non-proxy port, a successful policy lookup yields
an Accept carrying exactly the looked-up policy and the connection's client and
original-destination addresses, while a denial propagates as the error so that
neither processing branch receives a value. -/
theorem C8_policy_lookup_outcome (proxyPort : Nat)
    (check_allowed : SocketAddr → SocketAddr → Except Inbound.ConnectionDenied Inbound.AllowPolicy)
    (t : Inbound.Conn) (hport : t.origDst.port ≠ proxyPort) :
    (∀ policy, check_allowed t.origDst t.client = Except.ok policy →
      Inbound.pushAcceptSwitch proxyPort check_allowed t =
        Except.ok (SvcEither.a
          { client_addr := t.client, orig_dst_addr := t.origDst, policy := policy }))
    ∧ (∀ e, check_allowed t.origDst t.client = Except.error e →
      Inbound.pushAcceptSwitch proxyPort check_allowed t = Except.error e) := by
  constructor
  · intro policy hpol
    simp [Inbound.pushAcceptSwitch, hport, hpol]
  · intro e herr
    simp [Inbound.pushAcceptSwitch, hport, herr]

/-- Witness for C8 at a concrete non-proxy-port connection, once under an
allowing lookup and once under a denying one. -/
theorem C8_policy_lookup_outcome_witness :
    Inbound.pushAcceptSwitch 4143 checkAllow0 connOther =
      Except.ok (SvcEither.a
        { client_addr := connOther.client, orig_dst_addr := connOther.origDst, policy := { tag := 7 } })
    ∧ Inbound.pushAcceptSwitch 4143 checkDeny0 connOther = Except.error denied0 :=
  ⟨(C8_policy_lookup_outcome 4143 checkAllow0 connOther (by decide)).1 { tag := 7 } rfl,
   (C8_policy_lookup_outcome 4143 checkDeny0 connOther (by decide)).2 denied0 rfl⟩

/-- C7: the permission filter permits a resolution target exactly when — for a
name target — the name matches a configured suffix, or — for a socket target —
a configured network range of the same address family contains its address
(mismatched families never permit); a permitted target is returned unchanged
and an unpermitted one fails immediately with DiscoveryRejected, never reaching
the inner discovery call. -/
theorem C7_permission_filter (p : Dst.PermitConfiguredDsts) (t : Dst.Target) :
    (p.filter t =
      if Dst.permittedSpec p t then Except.ok t else Except.error Dst.DiscoveryRejected.new)
    ∧ (Dst.permittedSpec p t = false →
      ∀ {α : Type} (inner : Dst.Target → α),
        Dst.requestFilterService p inner t = Except.error Dst.DiscoveryRejected.new) := by
  have hb : (match t.dst with
      | Addr.name name => p.name_suffixes.any fun suffix => suffixContains suffix name.name
      | Addr.socket sa => p.networks.any fun net =>
          match net, sa.ip with
          | IpNet.v4 net, IpAddr.v4 addr => ipv4NetContains net addr
          | IpNet.v6 net, IpAddr.v6 addr => ipv6NetContains net addr
          | _, _ => false) = Dst.permittedSpec p t := by
    obtain ⟨dst⟩ := t
    cases dst with
    | name na => simp [Dst.permittedSpec, nameMatchMatches]
    | socket sa =>
      obtain ⟨ip, port⟩ := sa
      cases ip with
      | v4 a =>
        simp only [Dst.permittedSpec]
        congr 1
        funext net
        cases net <;> rfl
      | v6 a =>
        simp only [Dst.permittedSpec]
        congr 1
        funext net
        cases net <;> rfl
  have hfil : p.filter t =
      if Dst.permittedSpec p t then Except.ok t else Except.error Dst.DiscoveryRejected.new := by
    simp only [Dst.PermitConfiguredDsts.filter]
    rw [hb]
  refine ⟨hfil, ?_⟩
  intro hfalse α inner
  simp [Dst.requestFilterService, hfil, hfalse]

/-- Witness for C7: the out-of-suffix name target is rejected before the inner
resolver, and the in-suffix one passes the filter unchanged. -/
theorem C7_permission_filter_witness :
    Dst.permittedSpec permitCfg0 dstName1 = false
    ∧ Dst.requestFilterService permitCfg0 (fun _ => (0 : Nat)) dstName1 =
        Except.error Dst.DiscoveryRejected.new
    ∧ permitCfg0.filter dstName0 = Except.ok dstName0 :=
  ⟨rfl,
   (C7_permission_filter permitCfg0 dstName1).2 rfl (fun _ => (0 : Nat)),
   (C7_permission_filter permitCfg0 dstName0).1⟩

/-- C10: whenever the permission filter returns ok, the returned target is the
input target itself — the filter never rewrites a permitted target. -/
theorem C10_filter_returns_input (p : Dst.PermitConfiguredDsts) (t u : Dst.Target)
    (h : p.filter t = Except.ok u) : u = t := by
  simp only [Dst.PermitConfiguredDsts.filter] at h
  split at h
  · exact (Except.ok.inj h).symm
  · simp at h

/-- Witness for C10 at a concrete permitted target. -/
theorem C10_filter_returns_input_witness :
    permitCfg0.filter dstName0 = Except.ok dstName0 ∧ dstName0 = dstName0 :=
  ⟨rfl, C10_filter_returns_input permitCfg0 dstName0 dstName0 rfl⟩

/-- C4: a profile lookup is attempted exactly when the routing target is an
Override whose destination name is inside the configured profile domains; for
Forward targets and out-of-domain Overrides the gate rejects, the lookup is
skipped and no profile is produced, while an in-domain Override consults the
profile getter at the override's address. -/
theorem C4_discovery_gate (profile_domains : List Suffix) (h : Ingress.Http) :
    (exceptIsOk (Ingress.allowProfile profile_domains h) =
      Ingress.inDomainOverride profile_domains h)
    ∧ (Ingress.inDomainOverride profile_domains h = false →
      ∀ getProfile, Ingress.discoverProfile getProfile profile_domains h = none)
    ∧ (∀ dst, h.target = Ingress.Target.Override dst →
      nameMatchMatches profile_domains dst.name = true →
      ∀ getProfile, Ingress.discoverProfile getProfile profile_domains h =
        getProfile { addr := Addr.name dst }) := by
  obtain ⟨tgt, v⟩ := h
  refine ⟨?_, ?_, ?_⟩
  · cases tgt with
    | Forward a => rfl
    | Override dst =>
      by_cases hm : nameMatchMatches profile_domains dst.name
      · simp [Ingress.allowProfile, Ingress.inDomainOverride, hm, exceptIsOk]
      · simp only [Bool.not_eq_true] at hm
        simp [Ingress.allowProfile, Ingress.inDomainOverride, hm, exceptIsOk]
  · intro hfalse getProfile
    cases tgt with
    | Forward a => simp [Ingress.discoverProfile, Ingress.allowProfile]
    | Override dst =>
      simp only [Ingress.inDomainOverride] at hfalse
      simp [Ingress.discoverProfile, Ingress.allowProfile, hfalse]
  · intro dst hdst hm getProfile
    simp only [Ingress.Http.target] at hdst
    subst hdst
    simp [Ingress.discoverProfile, Ingress.allowProfile, hm]

/-- Witness for C4: discovery is skipped for the Forward key and attempted at
the override's address for the in-domain Override key. -/
theorem C4_discovery_gate_witness :
    Ingress.discoverProfile getProfile0 domains0 httpFwd0 = none
    ∧ Ingress.discoverProfile getProfile0 domains0 httpIn0 =
        getProfile0 { addr := Addr.name inDst0 } :=
  ⟨(C4_discovery_gate domains0 httpFwd0).2.1 rfl getProfile0,
   (C4_discovery_gate domains0 httpIn0).2.2 inDst0 rfl rfl getProfile0⟩

/-- C5: target extraction maps an absent override header to Forward of the
original destination; a header value that parses as host[:port] (default port
80 when omitted) to Override of the parsed name and port; and a present but
malformed value to the InvalidOverrideHeader request error — pinned on the
spec's three concrete examples as well. -/
theorem C5_target_extraction (orig_dst : Ingress.OrigDstAddr) (v : Ingress.Version) :
    (Ingress.routerExtract orig_dst v none =
      Except.ok { target := Ingress.Target.Forward orig_dst, version := v })
    ∧ (∀ a dst, Ingress.nameAddrFromAuthority a 80 = some dst →
      Ingress.routerExtract orig_dst v (some a) =
        Except.ok { target := Ingress.Target.Override dst, version := v })
    ∧ (∀ a, Ingress.nameAddrFromAuthority a 80 = none →
      Ingress.routerExtract orig_dst v (some a) = Except.error Ingress.InvalidOverrideHeader.mk)
    ∧ (Ingress.routerExtract orig_dst v (some "svc.example:9000") =
      Except.ok { target := Ingress.Target.Override { name := ["svc", "example"], port := 9000 },
                  version := v })
    ∧ (Ingress.routerExtract orig_dst v (some "svc.example") =
      Except.ok { target := Ingress.Target.Override { name := ["svc", "example"], port := 80 },
                  version := v })
    ∧ (Ingress.routerExtract orig_dst v (some "not a host") =
      Except.error Ingress.InvalidOverrideHeader.mk) := by
  refine ⟨rfl, ?_, ?_, ?_, ?_, ?_⟩
  · intro a dst hp
    simp [Ingress.routerExtract, hp]
  · intro a hp
    simp [Ingress.routerExtract, hp]
  · rfl
  · rfl
  · rfl

/-- Witness for C5: a parseable header value routes to its Override target. -/
theorem C5_target_extraction_witness :
    Ingress.nameAddrFromAuthority "web.cluster.local:8181" 80 =
      some { name := ["web", "cluster", "local"], port := 8181 }
    ∧ Ingress.routerExtract od0 Ingress.Version.http1 (some "web.cluster.local:8181") =
      Except.ok { target := Ingress.Target.Override { name := ["web", "cluster", "local"], port := 8181 },
                  version := Ingress.Version.http1 } :=
  ⟨rfl, (C5_target_extraction od0 Ingress.Version.http1).2.1 _ _ rfl⟩

/-- C6: for an in-domain Override target, discovery is consulted at the
override's address and the request is routed to the logical stack exactly when
the discovered profile carries a logical address; a missing profile or a
profile without a logical address fails the request with ProfileRequired
instead of forwarding it. -/
theorem C6_in_domain_override_routing (getProfile : Ingress.LookupAddr → Option Ingress.Profile)
    (profile_domains : List Suffix) (dst : NameAddr) (v : Ingress.Version)
    (hin : nameMatchMatches profile_domains dst.name = true) :
    Ingress.routeIngress getProfile profile_domains
        { target := Ingress.Target.Override dst, version := v } =
      match getProfile { addr := Addr.name dst } with
      | some p =>
        match p.addr with
        | some logical_addr =>
          Except.ok (SvcEither.a { profile := p, logical_addr := logical_addr, protocol := v })
        | none => Except.error Ingress.ProfileRequired.mk
      | none => Except.error Ingress.ProfileRequired.mk := by
  have hd : Ingress.discoverProfile getProfile profile_domains
      { target := Ingress.Target.Override dst, version := v } =
      getProfile { addr := Addr.name dst } := by
    simp [Ingress.discoverProfile, Ingress.allowProfile, hin]
  simp only [Ingress.routeIngress, hd, Ingress.ingressSwitch]

/-- Witness for C6 at the concrete in-domain override key, where the discovered
profile carries a logical address. -/
theorem C6_in_domain_override_routing_witness :
    Ingress.routeIngress getProfile0 domains0 httpIn0 =
      Except.ok (SvcEither.a
        { profile := { addr := some laddr0 }, logical_addr := laddr0,
          protocol := Ingress.Version.http1 }) :=
  (C6_in_domain_override_routing getProfile0 domains0 inDst0 Ingress.Version.http1 rfl).trans rfl

/-- C2 counterexample: for the concrete out-of-domain override key, even with a
profile getter that would discover a usable profile, the composed routing fails
with ProfileRequired instead of building a Forward-like endpoint route at the
override's address. -/
theorem C2_out_of_domain_counterexample :
    Ingress.routeIngress getProfile0 domains0 httpOut0 =
      Except.error Ingress.ProfileRequired.mk := rfl

/-- C2 amended: for every ingress request whose RoutingTarget is Override with
a name outside all configured profile domains, discovery is skipped (no profile
getter is consulted) and the request fails with the ProfileRequired error
rather than being routed with the override's address. -/
theorem C2_out_of_domain_override (getProfile : Ingress.LookupAddr → Option Ingress.Profile)
    (profile_domains : List Suffix) (dst : NameAddr) (v : Ingress.Version)
    (hout : nameMatchMatches profile_domains dst.name = false) :
    Ingress.discoverProfile getProfile profile_domains
        { target := Ingress.Target.Override dst, version := v } = none
    ∧ Ingress.routeIngress getProfile profile_domains
        { target := Ingress.Target.Override dst, version := v } =
      Except.error Ingress.ProfileRequired.mk := by
  have hd : Ingress.discoverProfile getProfile profile_domains
      { target := Ingress.Target.Override dst, version := v } = none := by
    simp [Ingress.discoverProfile, Ingress.allowProfile, hout]
  exact ⟨hd, by simp [Ingress.routeIngress, hd, Ingress.ingressSwitch]⟩

/-- Witness for C2's amended claim at the concrete out-of-domain override key. -/
theorem C2_out_of_domain_override_witness :
    Ingress.discoverProfile getProfile0 domains0 httpOut0 = none
    ∧ Ingress.routeIngress getProfile0 domains0 httpOut0 =
      Except.error Ingress.ProfileRequired.mk :=
  C2_out_of_domain_override getProfile0 domains0 outDst0 Ingress.Version.http1 rfl
